import Mathlib

/-!
Verification development for the dnsdisc library (EIP-1459 DNS node discovery).

The Rust source in src/src/lib.rs is shallowly embedded below:
pure functions (the record codec, whitelist check, root verification) become
Lean functions over Lean strings and byte lists, and the concurrent tree
walker (resolve_tree / resolve_branch / the per-child tasks) becomes a
fuel-bounded recursive function that returns the list of stream items
(each item an Except of a walker error or an emitted ENR) in the order the
code delivers them when per-branch child tasks are served in child order.

Out-of-scope external collaborators are abstracted exactly as the spec
prescribes: secp256k1 signature recovery (k256's recover_verify_key,
which hashes its message with keccak256 internally) is an opaque
parameter mapping (signature bytes, message text) to an optional
recovered compressed public key; curve-point validation of a 33-byte
compressed key retains only the SEC1 length and tag checks; and the ENR
codec is the identity on the full record text.
-/

namespace Dnsdisc

set_option maxRecDepth 40000

abbrev Bytes := List Nat

/-! ## Bit-level helpers for the data_encoding codecs -/

/-- The eight bits of a byte, most significant first. -/
def byteBits (b : Nat) : List Nat :=
  [b / 128 % 2, b / 64 % 2, b / 32 % 2, b / 16 % 2, b / 8 % 2, b / 4 % 2, b / 2 % 2, b % 2]

def bytesBits (bs : Bytes) : List Nat :=
  (bs.map byteBits).flatten

/-- Chop a bit list into w-bit values, zero-padding the final partial
group (the canonical left-aligned encoding used by RFC 4648 without
padding). The two accumulators carry the count and value of pending bits
of the group being assembled. -/
def bitsValsAux (w : Nat) : List Nat → Nat → Nat → List Nat
  | [], 0, _ => []
  | [], k + 1, acc => [acc * 2 ^ (w - (k + 1))]
  | b :: rest, k, acc =>
      let acc2 := acc * 2 + b
      if k + 1 = w then acc2 :: bitsValsAux w rest 0 0
      else bitsValsAux w rest (k + 1) acc2

def bitsToVals (w : Nat) (l : List Nat) : List Nat :=
  bitsValsAux w l 0 0

/-- Repack a list of w-bit values into bytes; fails unless the trailing
partial bits are all zero (data_encoding rejects non-canonical trailing
bits when decoding). -/
def packBits (w : Nat) : List Nat → Nat → Nat → Bytes → Option Bytes
  | [], _, acc, out => if acc = 0 then some out.reverse else none
  | v :: rest, nbits, acc, out =>
      let nb := nbits + w
      let acc2 := acc * 2 ^ w + v
      if 8 ≤ nb then
        packBits w rest (nb - 8) (acc2 % 2 ^ (nb - 8)) (acc2 / 2 ^ (nb - 8) :: out)
      else
        packBits w rest nb acc2 out

/-! ## RFC 4648 codecs as used by the source (data_encoding crate):
BASE64 (standard alphabet, padded) for formatting root signatures,
BASE64URL_NOPAD for parsing root signatures, BASE32_NOPAD for link keys. -/

def b64StdChar (v : Nat) : Char :=
  if v < 26 then Char.ofNat (65 + v)
  else if v < 52 then Char.ofNat (97 + v - 26)
  else if v < 62 then Char.ofNat (48 + v - 52)
  else if v = 62 then Char.ofNat 43
  else Char.ofNat 47

/-- data_encoding BASE64: standard alphabet, with trailing = padding. -/
def base64StdEncode (bs : Bytes) : String :=
  let chars := (bitsToVals 6 (bytesBits bs)).map b64StdChar
  let pad := (4 - chars.length % 4) % 4
  String.mk (chars ++ List.replicate pad (Char.ofNat 61))

def b64UrlVal (c : Char) : Option Nat :=
  let n := c.toNat
  if 65 ≤ n ∧ n ≤ 90 then some (n - 65)
  else if 97 ≤ n ∧ n ≤ 122 then some (n - 97 + 26)
  else if 48 ≤ n ∧ n ≤ 57 then some (n - 48 + 52)
  else if n = 45 then some 62
  else if n = 95 then some 63
  else none

/-- data_encoding BASE64URL_NOPAD decoding: URL-safe alphabet, no padding,
length 1 mod 4 forbidden, trailing bits must be zero. -/
def base64UrlNopadDecode (l : List Char) : Option Bytes :=
  if l.length % 4 = 1 then none
  else do
    let vals ← l.mapM b64UrlVal
    packBits 6 vals 0 0 []

def b32Char (v : Nat) : Char :=
  if v < 26 then Char.ofNat (65 + v) else Char.ofNat (50 + v - 26)

/-- data_encoding BASE32_NOPAD encoding: upper-case RFC 4648 alphabet. -/
def base32NopadEncode (bs : Bytes) : String :=
  String.mk ((bitsToVals 5 (bytesBits bs)).map b32Char)

def b32Val (c : Char) : Option Nat :=
  let n := c.toNat
  if 65 ≤ n ∧ n ≤ 90 then some (n - 65)
  else if 50 ≤ n ∧ n ≤ 55 then some (n - 50 + 26)
  else none

/-- data_encoding BASE32_NOPAD decoding: lengths 1, 3, 6 mod 8 forbidden,
trailing bits must be zero. -/
def base32NopadDecode (l : List Char) : Option Bytes :=
  if l.length % 8 = 1 ∨ l.length % 8 = 3 ∨ l.length % 8 = 6 then none
  else do
    let vals ← l.mapM b32Val
    packBits 5 vals 0 0 []

/-! ## Record model (src/src/lib.rs lines 28-93)

Base32Hash is ArrayString of capacity 26: a string whose UTF-8 byte length
is at most 26 (ArrayString's FromStr only enforces the capacity bound).
A signature is kept as its 65 raw bytes. A public key is kept as its
33 compressed SEC1 bytes. The opaque ENR value is kept as the full
record text (the enr crate's to_base64 form, which starts with the
enr: tag), per the spec's out-of-scope treatment of the ENR codec. -/

def rootTag : String := "enrtree-root:v1"
def linkTag : String := "enrtree://"
def branchTag : String := "enrtree-branch:"
def enrTag : String := "enr:"

structure UnsignedRoot where
  enr_root : String
  link_root : String
  sequence : Nat
deriving DecidableEq, Repr

structure RootRecord where
  base : UnsignedRoot
  signature : Bytes
deriving DecidableEq, Repr

inductive DnsRecord where
  | root (record : RootRecord)
  | link (public_key : Bytes) (domain : String)
  | branch (children : List String)
  | enr (record : String)
deriving DecidableEq, Repr

/-- Display for UnsignedRoot (derived from the display attribute on the
struct): enrtree-root:v1 e=.. l=.. seq=.. -/
def UnsignedRoot.toText (r : UnsignedRoot) : String :=
  rootTag ++ " e=" ++ r.enr_root ++ " l=" ++ r.link_root ++ " seq=" ++ toString r.sequence

/-- Display for RootRecord (lines 69-78): the unsigned text followed by
sig= and the signature in padded standard BASE64. -/
def RootRecord.toText (r : RootRecord) : String :=
  r.base.toText ++ " sig=" ++ base64StdEncode r.signature

/-- Display for DnsRecord (lines 95-119). Branch children are a HashSet in
the source; the embedding keeps them as a duplicate-free list and joins
them in list order. -/
def DnsRecord.toText : DnsRecord → String
  | .root r => r.toText
  | .link k d => linkTag ++ base32NopadEncode k ++ "@" ++ d
  | .branch cs => branchTag ++ String.intercalate "," cs
  | .enr s => s

/-! ## Parser (FromStr for DnsRecord, lines 121-208)

The source reports distinct diagnostic messages; no claim distinguishes
them, so every parse failure is collapsed to none. String manipulation
(prefix stripping, splitting, trimming) is carried out on the character
list underlying the string, mirroring the str methods of Rust. -/

/-- The UTF-8 byte length of a character list (str::len of Rust). -/
def charsBytes (l : List Char) : Nat :=
  (l.map Char.utf8Size).sum

/-- str::strip_prefix. -/
def stripPre (p l : List Char) : Option (List Char) :=
  if p.isPrefixOf l then some (l.drop p.length) else none

/-- str::split with a single-character separator: like the Rust method it
keeps empty pieces and yields one piece even for empty input. -/
def splitOnChar (sep : Char) : List Char → List (List Char)
  | [] => [[]]
  | c :: rest =>
      match splitOnChar sep rest with
      | [] => [[c]]
      | g :: gs => if c = sep then [] :: g :: gs else (c :: g) :: gs

/-- str::trim. -/
def trimChars (l : List Char) : List Char :=
  ((l.dropWhile Char.isWhitespace).reverse.dropWhile Char.isWhitespace).reverse

/-- str::split at every whitespace character, keeping empty pieces. -/
def splitWs : List Char → List (List Char)
  | [] => [[]]
  | c :: rest =>
      match splitWs rest with
      | [] => [[c]]
      | g :: gs => if c.isWhitespace then [] :: g :: gs else (c :: g) :: gs

/-- str::split_whitespace (the source applies it after trim, which this
subsumes): the maximal whitespace-free runs. -/
def wsTokens (l : List Char) : List (List Char) :=
  (splitWs l).filter (fun t => t ≠ [])

/-- ArrayString of capacity 26 parsing: succeeds iff the byte length is at
most 26 (no alphabet or exact-length check in the source). -/
def parseBase32Hash (l : List Char) : Option String :=
  if charsBytes l ≤ 26 then some (String.mk l) else none

/-- Rust unsigned-integer FromStr: optional leading plus sign, then one or
more ASCII digits. (usize overflow cannot be modelled on Nat and no claim
exercises it.) -/
def parseNatRust (l : List Char) : Option Nat :=
  let t := if l.headD 'x' = '+' then l.drop 1 else l
  if t = [] then none
  else if t.all Char.isDigit then
    some (t.foldl (fun n c => n * 10 + (c.toNat - 48)) 0)
  else none

/-- recoverable::Signature::from_bytes: exactly 65 bytes, the final byte a
recovery id below 4. -/
def parseSigBytes (l : List Char) : Option Bytes := do
  let v ← base64UrlNopadDecode l
  if v.length = 65 ∧ v.getD 64 0 < 4 then some v else none

structure RootFields where
  e : Option String
  l : Option String
  seq : Option Nat
  sig : Option Bytes

/-- The token loop of root parsing (lines 131-148): each token must carry
one of the four known keys; later tokens overwrite earlier ones. -/
def parseRootEntries (f : RootFields) : List (List Char) → Option RootFields
  | [] => some f
  | t :: rest =>
      match stripPre ['e', '='] t with
      | some v => do
          let h ← parseBase32Hash v
          parseRootEntries { f with e := some h } rest
      | none =>
      match stripPre ['l', '='] t with
      | some v => do
          let h ← parseBase32Hash v
          parseRootEntries { f with l := some h } rest
      | none =>
      match stripPre ['s', 'e', 'q', '='] t with
      | some v => do
          let n ← parseNatRust v
          parseRootEntries { f with seq := some n } rest
      | none =>
      match stripPre ['s', 'i', 'g', '='] t with
      | some v => do
          let sg ← parseSigBytes v
          parseRootEntries { f with sig := some sg } rest
      | none => none

/-- Membership-checking insertion modelling HashSet collection of branch
children. -/
def insertChild (acc : List String) (c : String) : List String :=
  if c ∈ acc then acc else acc ++ [c]

/-- The branch token loop (lines 181-195): every token must fit in an
ArrayString of capacity 26 (byte length at most 26); empty tokens are
dropped after parsing; duplicates are collapsed by the set collection. -/
def parseBranchTokens (acc : List String) : List (List Char) → Option (List String)
  | [] => some acc
  | t :: rest =>
      match parseBase32Hash t with
      | none => none
      | some v =>
          if v = "" then parseBranchTokens acc rest
          else parseBranchTokens (insertChild acc v) rest

/-- EncodedPoint::from_bytes followed by VerifyKey::from_encoded_point for
a compressed key: 33 bytes with SEC1 tag 2 or 3. (Uncompressed 65-byte
input and on-curve validation are crypto details outside the modelled
core.) -/
def checkEncodedPoint (bs : Bytes) : Option Bytes :=
  if bs.length = 33 ∧ (bs.headD 0 = 2 ∨ bs.headD 0 = 3) then some bs else none

/-- Link parsing over the parts produced by splitting on the at sign
(lines 164-179): the first part must decode as the key, the second part
becomes the domain, any later parts are ignored, and a missing second
part is an error. No emptiness check is made on the domain. -/
def parseLinkParts : List (List Char) → Option DnsRecord
  | [] => none
  | keyPart :: rest => do
      let bytes ← base32NopadDecode keyPart
      let k ← checkEncodedPoint bytes
      match rest with
      | [] => none
      | d :: _ => some (.link k (String.mk d))

def parseLinkBody (link : List Char) : Option DnsRecord :=
  parseLinkParts (splitOnChar '@' link)

/-- FromStr for DnsRecord (lines 121-208): dispatch on the four tags in
source order. The ENR arm delegates to the out-of-scope ENR codec,
modelled as accepting the full text. -/
def parseDnsRecord (s : String) : Option DnsRecord :=
  match stripPre rootTag.data s.data with
  | some root =>
      match parseRootEntries ⟨none, none, none, none⟩ (wsTokens (trimChars root)) with
      | none => none
      | some f => do
          let e ← f.e
          let l ← f.l
          let sq ← f.seq
          let sg ← f.sig
          some (.root ⟨⟨e, l, sq⟩, sg⟩)
  | none =>
  match stripPre linkTag.data s.data with
  | some link => parseLinkBody link
  | none =>
  match stripPre branchTag.data s.data with
  | some branch =>
      match parseBranchTokens [] (splitOnChar ',' (trimChars branch)) with
      | none => none
      | some cs => some (.branch cs)
  | none =>
  if enrTag.data.isPrefixOf s.data then some (.enr s)
  else none

/-! ## Tree walker (lines 210-436)

The backend is a finite map from FQDN text to TXT payload text; get_record
(per the lib.rs call sites and the trust-dns backend) returns no record
for an absent name, a parsed DnsRecord for a present one, and an error if
the payload does not parse. Signature recovery is an opaque parameter.

The walker itself is fuel-bounded: the source recursion is unbounded (no
cycle detection, as the spec notes), so every recursive call burns one
unit of fuel and an exhausted walk contributes nothing. The source
interleaves per-child tasks through a channel; the embedding serializes
the children of a branch in child order, which fixes one arrival order
among those the channel can produce. -/

inductive TreeError where
  | backendError (fqdn : String)
  | unexpectedLink (sub : String)
  | unexpectedEnr (sub : String)
  | unexpectedRoot (sub : String)
  | recoverFailure
  | keyMismatch
  | notRoot (host : String)
deriving DecidableEq, Repr

abbrev Whitelist := List (String × Bytes)

/-- A stream item: a walker error or an emitted ENR (its full text). -/
abbrev Item := Except TreeError String

abbrev Backend := List (String × String)

/-- The signature-recovery primitive of k256 (recover_verify_key), which
hashes its message with keccak256 internally: from 65 signature bytes and
the message text to an optional recovered compressed public key. -/
abbrev Recover := Bytes → String → Option Bytes

inductive BranchKind where
  | enr
  | link (remote_whitelist : Option Whitelist)
deriving DecidableEq, Repr

/-- domain_is_allowed (lines 210-218): absent map permits everything; a
present map permits a link only when it maps the domain to exactly the
link key. -/
def domainIsAllowed (wl : Option Whitelist) (domain : String) (public_key : Bytes) : Bool :=
  match wl with
  | none => true
  | some m =>
      match m.lookup domain with
      | none => false
      | some pk => pk = public_key

/-- RootRecord::verify (lines 60-67): recover a key from the signature
over self.to_string() and compare with the expected key. self is the
RootRecord, whose own Display (with the sig= field) applies — not the
unsigned base. -/
def RootRecord.verify (r : RootRecord) (recover : Recover) (pk : Bytes) : Except TreeError Bool :=
  match recover r.signature r.toText with
  | none => .error .recoverFailure
  | some k => .ok (k = pk)

/-- get_record against the in-memory backend: absent name is no record,
unparsable payload is an error. -/
def getRecord (b : Backend) (fqdn : String) : Except TreeError (Option DnsRecord) :=
  match b.lookup fqdn with
  | none => .ok none
  | some s =>
      match parseDnsRecord s with
      | none => .error (.backendError fqdn)
      | some r => .ok (some r)

/-- The consumption pattern (while let Some(x) = s.try_next().await?)
used at every point a stream of items is drained: forward successes until
the first error; the first error is forwarded and ends the consumption. -/
def truncErr : List Item → List Item
  | [] => []
  | .ok a :: rest => .ok a :: truncErr rest
  | .error e :: _ => [.error e]

/-- The three mutually recursive walks of the source, defunctionalized so
that the recursion is structural in the fuel: resolve_tree (lines
342-387), resolve_branch (lines 228-340) and the per-child task spawned
by resolve_branch (lines 236-331). -/
inductive Job where
  | tree (host : String) (public_key : Option Bytes) (seen : Option Nat) (wl : Option Whitelist)
  | branch (host : String) (children : List String) (kind : BranchKind)
  | child (host : String) (c : String) (kind : BranchKind)

def walk (recover : Recover) (b : Backend) : Nat → Job → List Item
  | 0, _ => []
  | fuel + 1, .tree host pk seen wl =>
      match getRecord b host with
      | .error e => [.error e]
      | .ok none => []
      | .ok (some record) =>
          match record with
          | .root r =>
              let gate : Option TreeError :=
                match pk with
                | none => none
                | some k =>
                    match r.verify recover k with
                    | .error e => some e
                    | .ok true => none
                    | .ok false => some .keyMismatch
              match gate with
              | some e => [.error e]
              | none =>
                  let go :=
                    truncErr
                      (walk recover b fuel (.branch host [r.base.link_root] (.link wl)) ++
                        walk recover b fuel (.branch host [r.base.enr_root] .enr))
                  match seen with
                  | some sn => if r.base.sequence ≤ sn then [] else go
                  | none => go
          | _ => [.error (.notRoot host)]
  | fuel + 1, .branch _host children _kind =>
      children.flatMap fun c => walk recover b fuel (.child _host c _kind)
  | fuel + 1, .child host c kind =>
      match getRecord b (c ++ "." ++ host) with
      | .error e => [.error e]
      | .ok none => []
      | .ok (some record) =>
          match record with
          | .branch children => truncErr (walk recover b fuel (.branch host children kind))
          | .link public_key domain =>
              match kind with
              | .link remote_whitelist =>
                  if domainIsAllowed remote_whitelist domain public_key then
                    truncErr (walk recover b fuel (.tree domain (some public_key) none remote_whitelist))
                  else []
              | .enr => [.error (.unexpectedLink c)]
          | .enr record =>
              match kind with
              | .enr => [.ok record]
              | .link _ => [.error (.unexpectedEnr c)]
          | .root _ => [.error (.unexpectedRoot c)]

/-- resolve_tree (lines 342-387); Resolver::query (line 426) delegates to
it with the configured seen sequence and whitelist. -/
def resolveTree (recover : Recover) (fuel : Nat) (b : Backend) (host : String)
    (public_key : Option Bytes) (seen : Option Nat) (wl : Option Whitelist) : List Item :=
  walk recover b fuel (.tree host public_key seen wl)

/-- resolve_branch (lines 228-340). -/
def resolveBranch (recover : Recover) (fuel : Nat) (b : Backend) (host : String)
    (children : List String) (kind : BranchKind) : List Item :=
  walk recover b fuel (.branch host children kind)

/-- The per-child task spawned by resolve_branch (lines 236-331). -/
def resolveChild (recover : Recover) (fuel : Nat) (b : Backend) (host : String)
    (c : String) (kind : BranchKind) : List Item :=
  walk recover b fuel (.child host c kind)

deriving instance DecidableEq for Except

/-! ## Concrete values from the EIP-1459 example (the test data of the
source, lines 451-472) -/

/-- The sig= payload of the example root TXT record. -/
def eipSigText : String :=
  "o908WmNp7LibOfPsr4btQwatZJ5URBr2ZAuxvK4UWHlsB9sUOTJQaGAlLPVAhM__XJesCHxLISo94z5Z2a463gA"

/-- The base32 public key of the example link record. -/
def eipKeyText : String :=
  "AM5FCQLWIZX2QFPNJAP7VUERCCRNGRHWZG3YYHIUV7BVDQ5FDPRT2"

/-- The 65 signature bytes decoded from the sig= payload. -/
def eipSig : Bytes := (base64UrlNopadDecode eipSigText.data).getD []

/-- The 33 compressed key bytes decoded from the link key. -/
def eipKey : Bytes := (base32NopadDecode eipKeyText.data).getD []

/-- The example root record of mynodes.org. -/
def eipRoot : RootRecord :=
  ⟨⟨"JWXYDBPXYWG6FX3GMDIBFA6CJ4", "C7HRFPF3BLGF3YR4DY5KX3SMBE", 1⟩, eipSig⟩

/-- The example root TXT payload. -/
def eipRootText : String :=
  "enrtree-root:v1 e=JWXYDBPXYWG6FX3GMDIBFA6CJ4 l=C7HRFPF3BLGF3YR4DY5KX3SMBE seq=1 sig="
    ++ eipSigText

/-! ## Claim C1 -/

/-- An ideal recovery oracle for the example root record: it recovers the
record's true signer exactly when given the canonical unsigned text that
EIP-1459 signatures cover, and some other key on any other message. -/
def c1Recover : Recover :=
  fun _ msg => if msg = eipRoot.base.toText then some [1] else some [2]

/-- C1: refuted on the code. verify recovers the signer over
self.to_string(), and RootRecord has its own Display carrying the sig=
field, so the message passed to recovery is the full record text with the
signature re-encoded in padded standard BASE64 — not the canonical
UnsignedRoot text the claim (and EIP-1459) prescribe. A signer whose key
is recoverable exactly from the canonical unsigned text is rejected by
verify. -/
theorem c1_verify_hashes_signed_text_not_unsigned :
    RootRecord.verify eipRoot c1Recover [1] = .ok false ∧
    c1Recover eipRoot.signature eipRoot.base.toText = some [1] ∧
    eipRoot.toText = eipRoot.base.toText ++ " sig=" ++ base64StdEncode eipRoot.signature ∧
    eipRoot.toText ≠ eipRoot.base.toText := by
  refine ⟨by decide, by decide, rfl, by decide⟩

/-! ## Claim C2 -/

/-- C2: refuted on the code. The example root record is producible by the
parser, but formatting re-encodes its signature with padded standard
BASE64 (Display, line 75) while parsing demands BASE64URL_NOPAD (line
143), so parse(format(r)) fails for every root record. -/
theorem c2_root_round_trip_fails :
    parseDnsRecord eipRootText = some (.root eipRoot) ∧
    parseDnsRecord (DnsRecord.toText (.root eipRoot)) = none := by
  constructor
  · decide
  · decide

/-! ## Claim C7 -/

theorem mem_insertChild (acc : List String) (c x : String) :
    x ∈ insertChild acc c ↔ x ∈ acc ∨ x = c := by
  unfold insertChild
  split
  · constructor
    · exact fun h => Or.inl h
    · rintro (h | rfl) <;> assumption
  · simp [List.mem_append]

theorem parseBranchTokens_sound (toks : List (List Char)) :
    ∀ acc, (∀ t ∈ toks, charsBytes t ≤ 26) →
      ∃ cs, parseBranchTokens acc toks = some cs ∧
        ∀ x, x ∈ cs ↔ x ∈ acc ∨ ∃ t ∈ toks, t ≠ [] ∧ x = String.mk t := by
  induction toks with
  | nil => intro acc _; exact ⟨acc, rfl, by simp⟩
  | cons t rest ih =>
      intro acc hsz
      have hts : charsBytes t ≤ 26 := hsz t (by simp)
      have hrest : ∀ u ∈ rest, charsBytes u ≤ 26 := fun u hu => hsz u (by simp [hu])
      by_cases ht : t = []
      · subst ht
        obtain ⟨cs, hcs, hmem⟩ := ih acc hrest
        refine ⟨cs, ?_, ?_⟩
        · simpa [parseBranchTokens, parseBase32Hash, charsBytes] using hcs
        · intro x
          rw [hmem x]
          simp
      · obtain ⟨cs, hcs, hmem⟩ := ih (insertChild acc (String.mk t)) hrest
        refine ⟨cs, ?_, ?_⟩
        · have hmk : ¬ String.mk t = "" := by
            intro hc
            exact ht (by simpa using congrArg String.data hc)
          simpa [parseBranchTokens, parseBase32Hash, hts, hmk] using hcs
        · intro x
          rw [hmem x, mem_insertChild]
          constructor
          · rintro ((h | rfl) | ⟨u, hu, hne, rfl⟩)
            · exact Or.inl h
            · exact Or.inr ⟨t, by simp, ht, rfl⟩
            · exact Or.inr ⟨u, by simp [hu], hne, rfl⟩
          · rintro (h | ⟨u, hu, hne, rfl⟩)
            · exact Or.inl (Or.inl h)
            · rcases List.mem_cons.mp hu with rfl | hu2
              · exact Or.inl (Or.inr rfl)
              · exact Or.inr ⟨u, hu2, hne, rfl⟩

theorem parseBranchTokens_overflow (toks : List (List Char)) :
    ∀ acc t, t ∈ toks → 26 < charsBytes t → parseBranchTokens acc toks = none := by
  induction toks with
  | nil => intro _ _ h; exact absurd h (by simp)
  | cons u rest ih =>
      intro acc t ht hsz
      rcases List.mem_cons.mp ht with rfl | hmem
      · simp [parseBranchTokens, parseBase32Hash, Nat.not_le.mpr hsz]
      · unfold parseBranchTokens parseBase32Hash
        split
        · rfl
        · split <;> exact ih _ t hmem hsz

/-- C7: refuted on the code. Base32Hash is ArrayString of capacity 26,
whose FromStr only rejects strings longer than 26 bytes: a branch token
of any other length, and of any characters, is accepted verbatim. The
counterexample token abc is 3 characters of lower-case text outside the
RFC 4648 alphabet, yet it parses as a branch child; the claim calls it a
parse error. -/
theorem c7_counterexample_short_lowercase_token_accepted :
    parseDnsRecord "enrtree-branch:abc" = some (.branch ["abc"]) := by decide

/-- C7 as amended: splitting on commas, skipping empty tokens and
collapsing duplicates under set semantics all hold, but token validation
only rejects tokens longer than 26 bytes (ArrayString capacity); any
token of at most 26 bytes is accepted with no exact-length or alphabet
check. -/
theorem c7_branch_children_amended :
    (∀ l : List Char, (parseBase32Hash l).isSome ↔ charsBytes l ≤ 26) ∧
    (∀ toks, (∀ t ∈ toks, charsBytes t ≤ 26) →
        ∃ cs, parseBranchTokens [] toks = some cs ∧
          ∀ x, x ∈ cs ↔ ∃ t ∈ toks, t ≠ [] ∧ x = String.mk t) ∧
    (∀ toks t, t ∈ toks → 26 < charsBytes t → parseBranchTokens [] toks = none) ∧
    parseDnsRecord "enrtree-branch:AAA,,AAA,B" = some (.branch ["AAA", "B"]) := by
  refine ⟨?_, ?_, ?_, by decide⟩
  · intro l
    unfold parseBase32Hash
    split <;> simp_all
  · intro toks hsz
    obtain ⟨cs, hcs, hmem⟩ := parseBranchTokens_sound toks [] hsz
    exact ⟨cs, hcs, fun x => by rw [hmem x]; simp⟩
  · intro toks t ht hsz
    exact parseBranchTokens_overflow toks [] t ht hsz

/-- Closed witness for the amended C7: a short lower-case token parses,
and a branch containing a 27-byte token fails. -/
theorem c7_branch_children_amended_witness :
    (parseBase32Hash ['a', 'b', 'c']).isSome = true ∧
    parseBranchTokens [] [['B'], List.replicate 27 'a'] = none := by
  constructor
  · exact (c7_branch_children_amended.1 ['a', 'b', 'c']).mpr (by decide)
  · exact c7_branch_children_amended.2.2.1 [['B'], List.replicate 27 'a']
      (List.replicate 27 'a') (by simp) (by decide)

/-! ## Claim C8 -/

/-- C8: refuted on the code. The link parser takes the first two pieces
of split at-sign iteration: the domain is the text strictly between the
first and second at sign, not the entire remainder, and no emptiness
check is made. With the EIP example key, the remainder a at b yields
domain a (the claim demands a at b), and an empty remainder yields the
empty domain (the claim demands non-empty). -/
theorem c8_counterexample_domain_is_second_split_piece :
    parseDnsRecord ("enrtree://" ++ eipKeyText ++ "@a@b") = some (.link eipKey "a") ∧
    parseDnsRecord ("enrtree://" ++ eipKeyText ++ "@") = some (.link eipKey "") := by
  constructor
  · decide
  · decide

/-- C8 as amended: the text before the first at sign must decode from
base32-nopad as the 33-byte compressed key; the domain is the piece
between the first and second at sign (everything after the first at sign
only when no further at sign occurs), and it may be empty; only a
missing at sign is an error. -/
theorem c8_link_parse_amended :
    (∀ (keyPart d : List Char) (rest : List (List Char)) (bs : Bytes),
        base32NopadDecode keyPart = some bs → bs.length = 33 →
        (bs.headD 0 = 2 ∨ bs.headD 0 = 3) →
        parseLinkParts (keyPart :: d :: rest) = some (.link bs (String.mk d))) ∧
    (∀ (keyPart d : List Char) (rest : List (List Char)),
        base32NopadDecode keyPart = none → parseLinkParts (keyPart :: d :: rest) = none) ∧
    (∀ keyPart : List Char, parseLinkParts [keyPart] = none) := by
  refine ⟨?_, ?_, ?_⟩
  · intro keyPart d rest bs hdec hlen htag
    have htag2 : bs.head?.getD 0 = 2 ∨ bs.head?.getD 0 = 3 := by simpa using htag
    simp [parseLinkParts, hdec, checkEncodedPoint, hlen, htag2]
  · intro keyPart d rest hdec
    simp [parseLinkParts, hdec]
  · intro keyPart
    unfold parseLinkParts
    cases h : base32NopadDecode keyPart with
    | none => simp
    | some bs =>
        simp only [Option.bind_eq_bind, Option.some_bind]
        cases h2 : checkEncodedPoint bs <;> simp

/-- Closed witness for the amended C8: the EIP example key with the
remainder a at b parses with domain a, and a remainder with no at sign
fails. -/
theorem c8_link_parse_amended_witness :
    parseLinkParts [eipKeyText.data, ['a'], ['b']] = some (.link eipKey "a") ∧
    parseLinkParts [eipKeyText.data] = none := by
  constructor
  · exact c8_link_parse_amended.1 eipKeyText.data ['a'] [['b']] eipKey (by decide)
      (by decide) (by decide)
  · exact c8_link_parse_amended.2.2 eipKeyText.data

/-! ## Walker unfolding lemmas and shared stream facts -/

theorem resolveBranch_succ (recover : Recover) (fuel : Nat) (b : Backend) (host : String)
    (children : List String) (kind : BranchKind) :
    resolveBranch recover (fuel + 1) b host children kind =
      children.flatMap fun c => resolveChild recover fuel b host c kind := rfl

theorem resolveChild_enr_in_link_kind (recover : Recover) (fuel : Nat) (b : Backend)
    (host c : String) (wl : Option Whitelist) (s : String)
    (h : getRecord b (c ++ "." ++ host) = .ok (some (.enr s))) :
    resolveChild recover (fuel + 1) b host c (.link wl) = [.error (.unexpectedEnr c)] := by
  simp [resolveChild, walk, h]

theorem resolveChild_link_in_enr_kind (recover : Recover) (fuel : Nat) (b : Backend)
    (host c : String) (k : Bytes) (d : String)
    (h : getRecord b (c ++ "." ++ host) = .ok (some (.link k d))) :
    resolveChild recover (fuel + 1) b host c .enr = [.error (.unexpectedLink c)] := by
  simp [resolveChild, walk, h]

theorem resolveChild_root_below_top (recover : Recover) (fuel : Nat) (b : Backend)
    (host c : String) (kind : BranchKind) (r : RootRecord)
    (h : getRecord b (c ++ "." ++ host) = .ok (some (.root r))) :
    resolveChild recover (fuel + 1) b host c kind = [.error (.unexpectedRoot c)] := by
  simp [resolveChild, walk, h]

theorem resolveChild_link_allowed (recover : Recover) (fuel : Nat) (b : Backend)
    (host c : String) (k : Bytes) (d : String) (wl : Option Whitelist)
    (h : getRecord b (c ++ "." ++ host) = .ok (some (.link k d)))
    (hok : domainIsAllowed wl d k = true) :
    resolveChild recover (fuel + 1) b host c (.link wl) =
      truncErr (resolveTree recover fuel b d (some k) none wl) := by
  simp [resolveChild, resolveTree, walk, h, hok]

theorem resolveChild_link_forbidden (recover : Recover) (fuel : Nat) (b : Backend)
    (host c : String) (k : Bytes) (d : String) (wl : Option Whitelist)
    (h : getRecord b (c ++ "." ++ host) = .ok (some (.link k d)))
    (hno : domainIsAllowed wl d k = false) :
    resolveChild recover (fuel + 1) b host c (.link wl) = [] := by
  simp [resolveChild, walk, h, hno]

theorem resolveTree_stale (recover : Recover) (fuel : Nat) (b : Backend) (host : String)
    (wl : Option Whitelist) (r : RootRecord) (s : Nat)
    (h : getRecord b host = .ok (some (.root r))) (hle : r.base.sequence ≤ s) :
    resolveTree recover (fuel + 1) b host none (some s) wl = [] := by
  simp [resolveTree, walk, h, hle]

theorem resolveTree_fresh_plain (recover : Recover) (fuel : Nat) (b : Backend) (host : String)
    (wl : Option Whitelist) (r : RootRecord) (seen : Option Nat)
    (h : getRecord b host = .ok (some (.root r)))
    (hseen : ∀ s, seen = some s → s < r.base.sequence) :
    resolveTree recover (fuel + 1) b host none seen wl =
      truncErr
        (resolveBranch recover fuel b host [r.base.link_root] (.link wl) ++
          resolveBranch recover fuel b host [r.base.enr_root] .enr) := by
  cases seen with
  | none => simp [resolveTree, resolveBranch, walk, h]
  | some s =>
      have hlt : s < r.base.sequence := hseen s rfl
      simp [resolveTree, resolveBranch, walk, h, Nat.not_le.mpr hlt]

theorem resolveTree_key_mismatch (recover : Recover) (fuel : Nat) (b : Backend) (host : String)
    (wl : Option Whitelist) (r : RootRecord) (seen : Option Nat) (k kr : Bytes)
    (h : getRecord b host = .ok (some (.root r)))
    (hrec : recover r.signature r.toText = some kr) (hne : kr ≠ k) :
    resolveTree recover (fuel + 1) b host (some k) seen wl = [.error .keyMismatch] := by
  simp [resolveTree, walk, h, RootRecord.verify, hrec, hne]

/-- truncErr keeps some error whenever its input held one. -/
theorem truncErr_mem_error (l : List Item) (e : TreeError) (h : Except.error e ∈ l) :
    ∃ e2, Except.error e2 ∈ truncErr l := by
  induction l with
  | nil => cases h
  | cons x rest ih =>
      cases x with
      | error f => exact ⟨f, by simp [truncErr]⟩
      | ok a =>
          rcases List.mem_cons.mp h with hx | hmem
          · cases hx
          · obtain ⟨e2, he2⟩ := ih hmem
            exact ⟨e2, by simp [truncErr, he2]⟩

/-- Whether every element before the last one is a success: the shape of
every stream the walker can deliver. -/
def errorsFinal : List Item → Bool
  | [] => true
  | [_] => true
  | x :: y :: rest => x.isOk && errorsFinal (y :: rest)

theorem errorsFinal_truncErr (l : List Item) : errorsFinal (truncErr l) = true := by
  induction l with
  | nil => rfl
  | cons x rest ih =>
      cases x with
      | error f => simp [truncErr, errorsFinal]
      | ok a =>
          rw [truncErr]
          cases h : truncErr rest with
          | nil => simp [errorsFinal]
          | cons y t =>
              rw [h] at ih
              simp [errorsFinal, Except.isOk, Except.toBool, ih]

/-- Every stream resolve_tree can deliver carries at most one error, and
only as its final item. -/
theorem resolveTree_errorsFinal (recover : Recover) (fuel : Nat) (b : Backend) (host : String)
    (pk : Option Bytes) (seen : Option Nat) (wl : Option Whitelist) :
    errorsFinal (resolveTree recover fuel b host pk seen wl) = true := by
  cases fuel with
  | zero => rfl
  | succ n =>
      simp only [resolveTree, walk]
      repeat' split
      all_goals first
        | rfl
        | exact errorsFinal_truncErr _

/-! ## Concrete walker fixtures shared by the walker claims -/

/-- A recovery oracle that always fails (never consulted on the paths
where no expected key is supplied). -/
def rec0 : Recover := fun _ _ => none

/-- A recovery oracle that always answers the EIP example link key. -/
def recEip : Recover := fun _ _ => some eipKey

/-- A recovery oracle that always answers the key 9. -/
def recNine : Recover := fun _ _ => some [9]

/-- An 87-character all-A base64url payload: 65 zero bytes. -/
def zeroSigText : String := String.mk (List.replicate 87 'A')

def zeroSig : Bytes := List.replicate 65 0

/-- A root TXT payload with subdomains EB and LA, sequence 1 and the
all-zero signature. -/
def zeroRootText : String :=
  "enrtree-root:v1 e=EB l=LA seq=1 sig=" ++ zeroSigText

def zeroRoot : RootRecord := ⟨⟨"EB", "LA", 1⟩, zeroSig⟩

/-- A backend with a single link record at C.h. -/
def linkChildB : Backend :=
  [("C.h", "enrtree://" ++ eipKeyText ++ "@d.example")]

/-- A backend whose host h holds only the zero-signed root. -/
def staleRootB : Backend := [("h", zeroRootText)]

/-- A backend in which an ENR subtree holds a branch whose first child is
a misplaced link record and whose second child is a valid ENR. -/
def errEnrB : Backend :=
  [("h", zeroRootText),
   ("EB.h", "enrtree-branch:X1,X2"),
   ("X1.h", "enrtree://" ++ eipKeyText ++ "@d.example"),
   ("X2.h", "enr:sibling")]

/-- A backend offering each misplaced record kind under host h, plus a
whole tree at host t whose ENR subtree leaf is a link record. -/
def kindsB : Backend :=
  [("E1.h", "enr:x"),
   ("L1.h", "enrtree://" ++ eipKeyText ++ "@d.example"),
   ("R1.h", zeroRootText),
   ("t", "enrtree-root:v1 e=E l=L seq=1 sig=" ++ zeroSigText),
   ("E.t", "enrtree://" ++ eipKeyText ++ "@d.example")]

/-- Two linked hosts: the entry tree at a.example (sequence 5) links to
b.example whose root has the stale sequence 1 and one ENR leaf. -/
def crossB : Backend :=
  [("a.example", "enrtree-root:v1 e=EA l=LB seq=5 sig=" ++ zeroSigText),
   ("LB.a.example", "enrtree://" ++ eipKeyText ++ "@b.example"),
   ("b.example", "enrtree-root:v1 e=EC l=LD seq=1 sig=" ++ zeroSigText),
   ("EC.b.example", "enr:linkedNode")]

/-! ## Claim C3 -/

/-- C3: confirmed. An absent whitelist permits every link; a present map
permits a link exactly when it maps the domain to the link key (so a
present-but-empty map forbids every link); a permitted link is followed
into the linked tree; a forbidden link contributes no items at all —
neither ENRs nor errors. -/
theorem c3_whitelist_gating :
    (∀ (d : String) (k : Bytes), domainIsAllowed none d k = true) ∧
    (∀ (wl : Whitelist) (d : String) (k : Bytes),
        domainIsAllowed (some wl) d k = true ↔ wl.lookup d = some k) ∧
    (∀ (d : String) (k : Bytes), domainIsAllowed (some []) d k = false) ∧
    (∀ (recover : Recover) (fuel : Nat) (b : Backend) (host c : String) (k : Bytes)
        (d : String) (wl : Option Whitelist),
        getRecord b (c ++ "." ++ host) = .ok (some (.link k d)) →
        domainIsAllowed wl d k = true →
        resolveChild recover (fuel + 1) b host c (.link wl) =
          truncErr (resolveTree recover fuel b d (some k) none wl)) ∧
    (∀ (recover : Recover) (fuel : Nat) (b : Backend) (host c : String) (k : Bytes)
        (d : String) (wl : Option Whitelist),
        getRecord b (c ++ "." ++ host) = .ok (some (.link k d)) →
        domainIsAllowed wl d k = false →
        resolveChild recover (fuel + 1) b host c (.link wl) = []) := by
  refine ⟨fun d k => rfl, ?_, fun d k => rfl, ?_, ?_⟩
  · intro wl d k
    cases h : wl.lookup d <;> simp [domainIsAllowed, h]
  · intro recover fuel b host c k d wl h hok
    exact resolveChild_link_allowed recover fuel b host c k d wl h hok
  · intro recover fuel b host c k d wl h hno
    exact resolveChild_link_forbidden recover fuel b host c k d wl h hno

/-- Closed witness for C3 at the EIP link key: an empty configured map
silently skips the link child. -/
theorem c3_whitelist_gating_witness :
    (domainIsAllowed (some [("d.example", eipKey)]) "d.example" eipKey = true) ∧
    resolveChild rec0 3 linkChildB "h" "C" (.link (some [])) = [] := by
  constructor
  · exact (c3_whitelist_gating.2.1 [("d.example", eipKey)] "d.example" eipKey).mpr (by decide)
  · exact c3_whitelist_gating.2.2.2.2 rec0 2 linkChildB "h" "C" eipKey "d.example"
      (some []) (by decide) (by decide)

/-! ## Claim C4 -/

/-- C4: confirmed. A configured seen_sequence at least the fetched entry
root's sequence ends the stream with zero items and no error, and
crossing a link record starts the linked tree with seen_sequence absent
(the literal none of resolve_tree's fifth argument at line 277): in the
concrete two-host backend, the linked tree with stale sequence 1 still
yields its ENR while the entry query was configured with seen sequence
1. -/
theorem c4_seen_sequence_entry_only :
    (∀ (recover : Recover) (fuel : Nat) (b : Backend) (host : String)
        (wl : Option Whitelist) (r : RootRecord) (s : Nat),
        getRecord b host = .ok (some (.root r)) → r.base.sequence ≤ s →
        resolveTree recover (fuel + 1) b host none (some s) wl = []) ∧
    (∀ (recover : Recover) (fuel : Nat) (b : Backend) (host c : String) (k : Bytes)
        (d : String) (wl : Option Whitelist),
        getRecord b (c ++ "." ++ host) = .ok (some (.link k d)) →
        domainIsAllowed wl d k = true →
        resolveChild recover (fuel + 1) b host c (.link wl) =
          truncErr (resolveTree recover fuel b d (some k) none wl)) ∧
    resolveTree recEip 8 crossB "a.example" none (some 1) none =
      [Except.ok "enr:linkedNode"] := by
  refine ⟨?_, ?_, by decide⟩
  · intro recover fuel b host wl r s h hle
    exact resolveTree_stale recover fuel b host wl r s h hle
  · intro recover fuel b host c k d wl h hok
    exact resolveChild_link_allowed recover fuel b host c k d wl h hok

/-- Closed witness for C4: the zero-signed root with sequence 1 under
seen sequence 1 yields nothing, and the link child crossing equation at
the concrete link backend. -/
theorem c4_seen_sequence_entry_only_witness :
    resolveTree rec0 3 staleRootB "h" none (some 1) none = [] ∧
    resolveChild rec0 3 linkChildB "h" "C" (.link none) =
      truncErr (resolveTree rec0 2 linkChildB "d.example" (some eipKey) none none) := by
  constructor
  · exact c4_seen_sequence_entry_only.1 rec0 2 staleRootB "h" none zeroRoot 1
      (by decide) (by decide)
  · exact c4_seen_sequence_entry_only.2.1 rec0 2 linkChildB "h" "C" eipKey "d.example"
      none (by decide) (by decide)

/-! ## Claim C5 -/

/-- C5: confirmed. An ENR record fetched at a child of a link-kind
branch, a link record fetched at a child of an ENR-kind branch, and a
root record fetched at a child of a branch of either kind each put a
protocol-error item on that branch's stream; and once a branch of the
root carries an error item, the query stream surfaces an error item. -/
theorem c5_kind_discipline_errors :
    (∀ (recover : Recover) (fuel : Nat) (b : Backend) (host : String)
        (children : List String) (c : String) (wl : Option Whitelist) (s : String),
        c ∈ children →
        getRecord b (c ++ "." ++ host) = .ok (some (.enr s)) →
        Except.error (.unexpectedEnr c) ∈
          resolveBranch recover (fuel + 2) b host children (.link wl)) ∧
    (∀ (recover : Recover) (fuel : Nat) (b : Backend) (host : String)
        (children : List String) (c : String) (k : Bytes) (d : String),
        c ∈ children →
        getRecord b (c ++ "." ++ host) = .ok (some (.link k d)) →
        Except.error (.unexpectedLink c) ∈
          resolveBranch recover (fuel + 2) b host children .enr) ∧
    (∀ (recover : Recover) (fuel : Nat) (b : Backend) (host : String)
        (children : List String) (c : String) (kind : BranchKind) (r : RootRecord),
        c ∈ children →
        getRecord b (c ++ "." ++ host) = .ok (some (.root r)) →
        Except.error (.unexpectedRoot c) ∈
          resolveBranch recover (fuel + 2) b host children kind) ∧
    (∀ (recover : Recover) (fuel : Nat) (b : Backend) (host : String)
        (wl : Option Whitelist) (r : RootRecord),
        getRecord b host = .ok (some (.root r)) →
        (∃ e, Except.error e ∈
            resolveBranch recover fuel b host [r.base.link_root] (.link wl) ++
              resolveBranch recover fuel b host [r.base.enr_root] .enr) →
        ∃ e2, Except.error e2 ∈ resolveTree recover (fuel + 1) b host none none wl) := by
  refine ⟨?_, ?_, ?_, ?_⟩
  · intro recover fuel b host children c wl s hc h
    rw [resolveBranch_succ]
    exact List.mem_flatMap.mpr
      ⟨c, hc, by rw [resolveChild_enr_in_link_kind recover fuel b host c wl s h]; simp⟩
  · intro recover fuel b host children c k d hc h
    rw [resolveBranch_succ]
    exact List.mem_flatMap.mpr
      ⟨c, hc, by rw [resolveChild_link_in_enr_kind recover fuel b host c k d h]; simp⟩
  · intro recover fuel b host children c kind r hc h
    rw [resolveBranch_succ]
    exact List.mem_flatMap.mpr
      ⟨c, hc, by rw [resolveChild_root_below_top recover fuel b host c kind r h]; simp⟩
  · intro recover fuel b host wl r h hex
    obtain ⟨e, he⟩ := hex
    rw [resolveTree_fresh_plain recover fuel b host wl r none h (by intro s hs; cases hs)]
    exact truncErr_mem_error _ e he

/-- Closed witness for C5: each misplaced record kind produces its
protocol error at the concrete backend, and the tree at host t (whose
ENR subtree leaf is a link record) surfaces an error on the query
stream. -/
theorem c5_kind_discipline_errors_witness :
    Except.error (.unexpectedEnr "E1") ∈ resolveBranch rec0 4 kindsB "h" ["E1"] (.link none) ∧
    Except.error (.unexpectedLink "L1") ∈ resolveBranch rec0 4 kindsB "h" ["L1"] .enr ∧
    Except.error (.unexpectedRoot "R1") ∈ resolveBranch rec0 4 kindsB "h" ["R1"] .enr ∧
    ∃ e2, Except.error e2 ∈ resolveTree rec0 4 kindsB "t" none none none := by
  refine ⟨?_, ?_, ?_, ?_⟩
  · exact c5_kind_discipline_errors.1 rec0 2 kindsB "h" ["E1"] "E1" none "enr:x"
      (by decide) (by decide)
  · exact c5_kind_discipline_errors.2.1 rec0 2 kindsB "h" ["L1"] "L1" eipKey "d.example"
      (by decide) (by decide)
  · exact c5_kind_discipline_errors.2.2.1 rec0 2 kindsB "h" ["R1"] "R1" .enr zeroRoot
      (by decide) (by decide)
  · exact c5_kind_discipline_errors.2.2.2 rec0 3 kindsB "t" none ⟨⟨"E", "L", 1⟩, zeroSig⟩
      (by decide) ⟨.unexpectedLink "E", by decide⟩

/-! ## Claim C6 -/

/-- C6: refuted on the code. At the concrete backend the ENR subtree
branch holds a failing first child and a healthy ENR sibling, yet the
query stream is exactly the single error item: the while-let consumption
with the question-mark operator in resolve_tree ends the try_stream at
the first error item, so the sibling's ENR (present in the backend and
parseable) is never delivered after it. -/
theorem c6_error_ends_stream_counterexample :
    resolveTree rec0 6 errEnrB "h" none none none =
      [Except.error (.unexpectedLink "X1")] ∧
    errEnrB.lookup "X2.h" = some "enr:sibling" ∧
    parseDnsRecord "enr:sibling" = some (.enr "enr:sibling") := by
  refine ⟨by decide, by decide, by decide⟩

/-- C6 as amended: errors arising in a subtree are delivered as failed
items and a failed child does not cancel its sibling subtasks — at
branch level the sibling's ENR is still delivered after the error item —
but the query stream itself terminates at the first failed item it
delivers: in every stream resolve_tree produces, an error item can only
be the final item, so the consumer never receives an ENR after an
error. -/
theorem c6_errors_streamed_amended :
    (∀ (recover : Recover) (fuel : Nat) (b : Backend) (host : String)
        (pk : Option Bytes) (seen : Option Nat) (wl : Option Whitelist),
        errorsFinal (resolveTree recover fuel b host pk seen wl) = true) ∧
    resolveBranch rec0 4 errEnrB "h" ["X1", "X2"] .enr =
      [Except.error (.unexpectedLink "X1"), Except.ok "enr:sibling"] := by
  exact ⟨resolveTree_errorsFinal, by decide⟩

/-! ## Claim C10 -/

/-- C10: confirmed. Crossing a permitted link queries the linked domain
with the link's embedded key as the expected signer (resolve_tree is
called with some public_key and no seen sequence), and when the key
recovered from the linked root's signature differs from that expected
key the linked stream is exactly one failure item and no ENRs. -/
theorem c10_link_key_is_expected_signer :
    (∀ (recover : Recover) (fuel : Nat) (b : Backend) (host c : String) (k : Bytes)
        (d : String) (wl : Option Whitelist),
        getRecord b (c ++ "." ++ host) = .ok (some (.link k d)) →
        domainIsAllowed wl d k = true →
        resolveChild recover (fuel + 1) b host c (.link wl) =
          truncErr (resolveTree recover fuel b d (some k) none wl)) ∧
    (∀ (recover : Recover) (fuel : Nat) (b : Backend) (host : String)
        (wl : Option Whitelist) (r : RootRecord) (seen : Option Nat) (k kr : Bytes),
        getRecord b host = .ok (some (.root r)) →
        recover r.signature r.toText = some kr → kr ≠ k →
        resolveTree recover (fuel + 1) b host (some k) seen wl =
          [Except.error .keyMismatch]) := by
  constructor
  · intro recover fuel b host c k d wl h hok
    exact resolveChild_link_allowed recover fuel b host c k d wl h hok
  · intro recover fuel b host wl r seen k kr h hrec hne
    exact resolveTree_key_mismatch recover fuel b host wl r seen k kr h hrec hne

/-- Closed witness for C10: the concrete link child crossing carries the
EIP key as expected signer, and a root whose signature recovers the key
9 fails against the expected key 1 with a single failure item. -/
theorem c10_link_key_is_expected_signer_witness :
    resolveChild recNine 5 linkChildB "h" "C" (.link none) =
      truncErr (resolveTree recNine 4 linkChildB "d.example" (some eipKey) none none) ∧
    resolveTree recNine 3 staleRootB "h" (some [1]) none none =
      [Except.error .keyMismatch] := by
  constructor
  · exact c10_link_key_is_expected_signer.1 recNine 4 linkChildB "h" "C" eipKey
      "d.example" none (by decide) (by decide)
  · exact c10_link_key_is_expected_signer.2 recNine 2 staleRootB "h" none zeroRoot
      none [1] [9] (by decide) rfl (by decide)

end Dnsdisc
